import Mathlib

/-!
# Verification of the jirabot rule-based NLU classifier

A shallow embedding of `NLUProcessor.process_command` from `nlu_processor.py`.
The Python code lower-cases the command for keyword tests (`doc.text` is the
spaCy rendering of the lower-cased input, which reproduces it verbatim) and
runs a fixed cascade of case-insensitive regular expressions over the
original-case text, stripping matched spans between steps.  Each regular
expression of the source is translated here as a dedicated matcher with
Python `re` semantics (leftmost match, greedy/lazy quantifiers resolved as
the backtracking engine would, `\s` = ASCII whitespace, `.` excluding
newline, `$` at end of string or before a final newline, `\b` word
boundaries, `re.IGNORECASE` where the source passes it).  The model covers
the ASCII fragment of Python's Unicode string methods, which is the alphabet
of every command the program handles.
-/

namespace Jirabot

/-- ASCII fragment of Python `str.lower` on one character. -/
def lowerChar (c : Char) : Char :=
  if 'A' ≤ c ∧ c ≤ 'Z' then Char.ofNat (c.toNat + 32) else c

/-- ASCII fragment of Python `str.upper` on one character. -/
def upperChar (c : Char) : Char :=
  if 'a' ≤ c ∧ c ≤ 'z' then Char.ofNat (c.toNat - 32) else c

/-- Python `str.lower` over the characters of a command. -/
def lowerL (s : List Char) : List Char := s.map lowerChar

/-- Python `str.upper` over the characters of a command. -/
def upperL (s : List Char) : List Char := s.map upperChar

/-- Python `\s` (ASCII): space, tab, newline, carriage return, vertical tab, form feed. -/
def isSpaceCh (c : Char) : Bool :=
  c == ' ' || c == '\t' || c == '\n' || c == '\r' || c == '\x0b' || c == '\x0c'

def isUpperCh (c : Char) : Bool := decide ('A' ≤ c) && decide (c ≤ 'Z')

def isLowerCh (c : Char) : Bool := decide ('a' ≤ c) && decide (c ≤ 'z')

/-- Class `[A-Z]` under `re.IGNORECASE`: any ASCII letter. -/
def isLetterCh (c : Char) : Bool := isUpperCh c || isLowerCh c

def isDigitCh (c : Char) : Bool := decide ('0' ≤ c) && decide (c ≤ '9')

/-- Python `\w` on the ASCII fragment: letters, digits, underscore. -/
def isWordCh (c : Char) : Bool := isLetterCh c || isDigitCh c || c == '_'

/-- Word-character test on an optional character (string edge = non-word). -/
def isWordO : Option Char → Bool
  | some c => isWordCh c
  | none => false

/-- The quote class `['"]` of the extraction patterns. -/
def isQuoteCh (c : Char) : Bool := c == '\'' || c == '"'

/-- Does `pat` occur at the very front of `s` (case-sensitive)? -/
def hasLead : List Char → List Char → Bool
  | [], _ => true
  | _ :: _, [] => false
  | p :: ps, c :: cs => (c == p) && hasLead ps cs

/-- Python substring containment `pat in s`. -/
def containsSub (pat : List Char) : List Char → Bool
  | [] => hasLead pat []
  | c :: cs => hasLead pat (c :: cs) || containsSub pat cs

/-- Python `s.split(sep, 1)` restricted to the found case: the text before the
first occurrence of `sep` and the text after it.  `none` when `sep` does not
occur (Python would return a single part). -/
def splitFirst (pat : List Char) : List Char → Option (List Char × List Char)
  | [] => if hasLead pat [] then some ([], []) else none
  | c :: cs =>
    if hasLead pat (c :: cs) then some ([], (c :: cs).drop pat.length)
    else (splitFirst pat cs).map (fun r => (c :: r.1, r.2))

/-- Python `s.replace(pat, "")`: remove every non-overlapping occurrence,
scanning left to right.  Fuel-driven; `s.length` steps always suffice. -/
def removeOccF (pat : List Char) : Nat → List Char → List Char
  | 0, s => s
  | _ + 1, [] => []
  | fuel + 1, c :: cs =>
    if hasLead pat (c :: cs) then removeOccF pat fuel ((c :: cs).drop pat.length)
    else c :: removeOccF pat fuel cs

/-- Python `s.replace(pat, "")`. -/
def replaceEmpty (pat s : List Char) : List Char := removeOccF pat s.length s

/-- Python `str.strip()`: drop whitespace from both ends. -/
def stripL (s : List Char) : List Char :=
  ((s.dropWhile isSpaceCh).reverse.dropWhile isSpaceCh).reverse

/-- Python `str.title()`: a letter is upper-cased when the previous character
is not a letter, lower-cased otherwise. -/
def titleF : Bool → List Char → List Char
  | _, [] => []
  | prevAlpha, c :: cs =>
    if isLetterCh c then
      (if prevAlpha then lowerChar c else upperChar c) :: titleF true cs
    else c :: titleF false cs

/-- Python `str.title()`. -/
def titleL (s : List Char) : List Char := titleF false s

/-- Consume `pat` case-insensitively at the front of `s`, returning the rest.
Models a literal of an `re.IGNORECASE` pattern. -/
def dropCI : List Char → List Char → Option (List Char)
  | [], s => some s
  | _ :: _, [] => none
  | p :: ps, c :: cs => if lowerChar c == lowerChar p then dropCI ps cs else none

/-- The lazy quoted capture `(.+?)['"]`, entered just after the opening quote:
the shortest non-empty newline-free run of characters followed by a closing
quote (single or double, independently of the opening one).  Returns the
captured group and the text after the closing quote. -/
def lazyToQuote : List Char → Option (List Char × List Char)
  | [] => none
  | c :: cs =>
    let body := cs.takeWhile (fun d => !isQuoteCh d)
    let rest := cs.dropWhile (fun d => !isQuoteCh d)
    match rest with
    | _ :: rs =>
      if (c :: body).all (fun d => d != '\n') then some (c :: body, rs) else none
    | [] => none

/-- Fragment `\s*['"](.+?)['"]` entered at the current position: skip
whitespace, expect a quote, then the lazy capture. -/
def quoteCore (r : List Char) : Option (List Char × List Char) :=
  match r.dropWhile isSpaceCh with
  | q :: r2 => if isQuoteCh q then lazyToQuote r2 else none
  | [] => none

/-- One attempt, at the current position, of the description pattern
`(?:with|and)\s+(?:description)\s*['"](.+?)['"]` (line 61 of the source).
Returns the captured group and the text after the whole match. -/
def descAt (s : List Char) : Option (List Char × List Char) :=
  match dropCI "with".data s <|> dropCI "and".data s with
  | none => none
  | some r1 =>
    match r1 with
    | c :: _ =>
      if isSpaceCh c then
        match dropCI "description".data (r1.dropWhile isSpaceCh) with
        | none => none
        | some r3 => quoteCore r3
      else none
    | [] => none

/-- Anchor `$` of the Python patterns: end of string, or just before a final
newline. -/
def atEndL (rest : List Char) : Prop := rest = [] ∨ rest = ['\n']

instance (rest : List Char) : Decidable (atEndL rest) := by
  unfold atEndL; infer_instance

/-- The token part `(\b[A-Z]{2,10}\b)$` of the project pattern under
`re.IGNORECASE`.  `bOk` says the preceding character was a non-word character
(the leading `\b`); the greedy letter run must be the whole remaining word,
2–10 letters long, and reach the end of the text (trailing `\b` and `$`). -/
def projTok (bOk : Bool) (r : List Char) : Option (List Char × List Char) :=
  if bOk then
    let run := r.takeWhile isLetterCh
    let rest := r.dropWhile isLetterCh
    if 2 ≤ run.length ∧ run.length ≤ 10 ∧ atEndL rest then some (run, rest) else none
  else none

/-- One attempt of the project pattern
`(?:in|for|on)\s*(?:project)?\s*(\b[A-Z]{2,10}\b)$` (line 70 of the source):
keyword, optional whitespace, optional literal `project` (tried first, as the
greedy `?` does), optional whitespace, then the end-anchored token. -/
def projAt (s : List Char) : Option (List Char × List Char) :=
  match dropCI "in".data s <|> dropCI "for".data s <|> dropCI "on".data s with
  | none => none
  | some r1 =>
    let sp1 := r1.takeWhile isSpaceCh
    let r2 := r1.dropWhile isSpaceCh
    let withProj :=
      match dropCI "project".data r2 with
      | some r3 => projTok (!(r3.takeWhile isSpaceCh).isEmpty) (r3.dropWhile isSpaceCh)
      | none => none
    withProj <|> projTok (!sp1.isEmpty) r2

/-- One attempt of the quoted summary pattern
`(?:called|titled|for|summary)?\s*['"](.+?)['"]` (line 78 of the source): the
optional keyword is tried first, and on failure of its continuation the
pattern falls back to matching without it at the same position. -/
def summaryAt (s : List Char) : Option (List Char × List Char) :=
  match dropCI "called".data s <|> dropCI "titled".data s <|>
        dropCI "for".data s <|> dropCI "summary".data s with
  | some r => quoteCore r <|> quoteCore s
  | none => quoteCore s

/-- Alternation `(?:story|task|defect|bug)` as in the fallback summary pattern. -/
def typeKwDrop (r : List Char) : Option (List Char) :=
  dropCI "story".data r <|> dropCI "task".data r <|>
  dropCI "defect".data r <|> dropCI "bug".data r

/-- The trailing `\s*(.+?)$` of the fallback summary pattern: greedy
whitespace, then the lazy capture forced to reach the end (`.` never matches
a newline; `$` also matches just before a final newline).  When everything
after the type keyword is whitespace the engine backtracks one character, so
the capture is the final whitespace character. -/
def tailCap (r3 : List Char) : Option (List Char) :=
  let core := if r3.getLast? == some '\n' then r3.dropLast else r3
  let t := core.dropWhile isSpaceCh
  if !t.isEmpty then (if t.any (fun d => d == '\n') then none else some t)
  else
    match core.getLast? with
    | some c => if c == '\n' then none else some [c]
    | none => none

/-- Tail `\s*(?:story|task|defect|bug)\s*(.+?)$` after the optional article. -/
def afterArt (r1 : List Char) : Option (List Char) :=
  match typeKwDrop (r1.dropWhile isSpaceCh) with
  | some r3 => tailCap r3
  | none => none

/-- One attempt of the unquoted fallback summary pattern
`(?:create|new)\s*(?:a|an)?\s*(?:story|task|defect|bug)\s*(.+?)$`
(line 84 of the source).  The article alternatives are tried in the
pattern's order: `a`, then `an`, then none. -/
def fallbackAt (s : List Char) : Option (List Char × List Char) :=
  match dropCI "create".data s <|> dropCI "new".data s with
  | none => none
  | some r0 =>
    let r := r0.dropWhile isSpaceCh
    let try1 := match dropCI "a".data r with
      | some r1 => afterArt r1
      | none => none
    let try2 := match dropCI "an".data r with
      | some r1 => afterArt r1
      | none => none
    ((try1 <|> try2) <|> afterArt r).map (fun g => (g, ([] : List Char)))

/-- One attempt of the issue-key pattern `(\b[A-Z]{1,10}-\d+\b)` under
`re.IGNORECASE` (lines 103 and 146 of the source): word boundary, 1–10
letters, a dash, at least one digit, word boundary. -/
def issueAt (prev : Option Char) (s : List Char) : Option (List Char) :=
  if isWordO prev then none
  else if 1 ≤ (s.takeWhile isLetterCh).length ∧ (s.takeWhile isLetterCh).length ≤ 10 then
    match s.dropWhile isLetterCh with
    | '-' :: r2 =>
      if !(r2.takeWhile isDigitCh).isEmpty && !isWordO (r2.dropWhile isDigitCh).head? then
        some (s.takeWhile isLetterCh ++ '-' :: r2.takeWhile isDigitCh)
      else none
    | _ => none
  else none

/-- Search for the issue-key pattern: leftmost successful attempt, threading
the previous character for the leading word boundary. -/
def issueSearch : Option Char → List Char → Option (List Char)
  | prev, [] => issueAt prev []
  | prev, c :: cs =>
    match issueAt prev (c :: cs) with
    | some k => some k
    | none => issueSearch (some c) cs

/-- Fragment `(?:to|as)\s*['"](.+?)['"]` of the modify patterns. -/
def toAsQuote (r : List Char) : Option (List Char × List Char) :=
  match dropCI "to".data r <|> dropCI "as".data r with
  | some r1 => quoteCore r1
  | none => none

/-- One attempt of `(?:summary|title)\s*(?:to|as)\s*['"](.+?)['"]`
(line 151 of the source). -/
def sumToAt (s : List Char) : Option (List Char × List Char) :=
  match dropCI "summary".data s <|> dropCI "title".data s with
  | some r => toAsQuote (r.dropWhile isSpaceCh)
  | none => none

/-- One attempt of `(?:description)\s*(?:to|as)\s*['"](.+?)['"]`
(line 157 of the source). -/
def descToAt (s : List Char) : Option (List Char × List Char) :=
  match dropCI "description".data s with
  | some r => toAsQuote (r.dropWhile isSpaceCh)
  | none => none

/-- Python `re.search`: try the single-position matcher `f` at every position
from the left; on the first success return the text before the match, the
captured group and the text after the match. -/
def searchScan (f : List Char → Option (List Char × List Char)) :
    List Char → Option (List Char × List Char × List Char)
  | [] => (f []).map (fun r => ([], r.1, r.2))
  | c :: cs =>
    match f (c :: cs) with
    | some (g, rest) => some ([], g, rest)
    | none => (searchScan f cs).map (fun r => (c :: r.1, r.2.1, r.2.2))

/-- Python `re.sub(pattern, "", s)`: remove every non-overlapping match,
continuing after each removed span.  Fuel-driven; `s.length + 1` steps always
suffice because each removed match is non-empty. -/
def removeScanF (f : List Char → Option (List Char × List Char)) :
    Nat → List Char → List Char
  | 0, s => s
  | fuel + 1, s =>
    match searchScan f s with
    | some (pre, _, rest) => pre ++ removeScanF f fuel rest
    | none => s

/-- Python `re.sub(pattern, "", s)` for the matcher `f`. -/
def removeScan (f : List Char → Option (List Char × List Char)) (s : List Char) :
    List Char :=
  removeScanF f (s.length + 1) s

/-- Removal `re.sub(r"\bissue\b", "", s)` (line 125 of the source): remove
every word-bounded occurrence of `issue`, tracking the character before the
current position for the left boundary. -/
def subIssueF : Option Char → Nat → List Char → List Char
  | _, 0, s => s
  | _, _ + 1, [] => []
  | prev, fuel + 1, c :: cs =>
    if !isWordO prev && hasLead "issue".data (c :: cs) &&
        !isWordO ((c :: cs).drop 5).head? then
      subIssueF (some 'e') fuel ((c :: cs).drop 5)
    else c :: subIssueF (some c) fuel cs

/-- Python `re.sub(r"\bissue\b", "", s)`. -/
def subIssue (s : List Char) : List Char := subIssueF none s.length s

/-- Pack a character list back into a string (Python values stored in the
entities dict). -/
def strOf (l : List Char) : String := String.mk l

/-- The output record of `process_command`: the `intent`, the `entities`
mapping in insertion order, and the `message` field that only the
model-not-loaded error dictionary carries (that dictionary has no entities
key; it is rendered here with an empty list). -/
structure ParseResult where
  intent : String
  entities : List (String × String)
  message : Option String
deriving Repr, DecidableEq

/-- Lookup in the entities mapping: Python `entities.get(k)` (keys are unique
by construction, first hit wins). -/
def lookupEnt (es : List (String × String)) (k : String) : Option String :=
  match es with
  | [] => none
  | (k', v) :: rest => if k = k' then some v else lookupEnt rest k

/-- Python truthiness of `entities.get(k)`: the key is present and its value
is not the empty string. -/
def entTruthy (es : List (String × String)) (k : String) : Bool :=
  match lookupEnt es k with
  | some v => !(v == "")
  | none => false

/-- The create-branch trigger (line 46): the lower-cased text contains
`create` or `new`, and one of the four issue-type keywords. -/
def createTrigger (low : List Char) : Bool :=
  (containsSub "create".data low || containsSub "new".data low) &&
  (containsSub "story".data low || containsSub "task".data low ||
   containsSub "defect".data low || containsSub "bug".data low)

/-- The transition-branch trigger (line 99). -/
def transitionTrigger (low : List Char) : Bool :=
  containsSub "close".data low || containsSub "resolve".data low ||
  containsSub "abandon".data low || containsSub "transition".data low

/-- The modify-branch trigger (line 142). -/
def modifyTrigger (low : List Char) : Bool :=
  containsSub "modify".data low || containsSub "update".data low

/-- Issue-type scan (lines 51–56): first keyword contained in the lower-cased
text, capitalized; `Story` when none occurs (the loop's `else`). -/
def issueTypeOf (low : List Char) : String :=
  if containsSub "story".data low then "Story"
  else if containsSub "task".data low then "Task"
  else if containsSub "defect".data low then "Defect"
  else if containsSub "bug".data low then "Bug"
  else "Story"

/-- The captured description group, when the description pattern matches. -/
def descGroup (text : List Char) : Option (List Char) :=
  (searchScan descAt text).map (fun r => r.2.1)

/-- The working text after the description step (lines 63–67): the matched
spans are removed only when the search succeeded. -/
def descStripped (text : List Char) : List Char :=
  match searchScan descAt text with
  | some _ => removeScan descAt text
  | none => text

/-- The create branch's entity map (lines 48–87), built in insertion order:
issue type, then description (original text), then project key (on the
description-stripped text, removing its span), then summary (quoted pattern
first, unquoted fallback second, the fallback guarded by a non-empty
capture). -/
def createEntities (text low : List Char) : List (String × String) :=
  let e0 : List (String × String) := [("issue_type", issueTypeOf low)]
  let e1 := match descGroup text with
    | some g => e0 ++ [("description", strOf (stripL g))]
    | none => e0
  let t1 := descStripped text
  let projM := searchScan projAt t1
  let e2 := match projM with
    | some (_, tok, _) => e1 ++ [("project_key", strOf (upperL tok))]
    | none => e1
  let t2 := match projM with
    | some _ => removeScan projAt t1
    | none => t1
  match searchScan summaryAt t2 with
  | some (_, g, _) => e2 ++ [("summary", strOf (stripL g))]
  | none =>
    match searchScan fallbackAt t2 with
    | some (_, g, _) =>
      if !g.isEmpty then e2 ++ [("summary", strOf (stripL g))] else e2
    | none => e2

/-- The create branch (lines 46–91): intent `create`, downgraded to
`unclear_create` when the summary entity is absent or empty. -/
def createBranch (text low : List Char) : ParseResult :=
  { intent := if entTruthy (createEntities text low) "summary"
              then "create" else "unclear_create"
    entities := createEntities text low
    message := none }

/-- Transition-name derivation (lines 107–130).  `keyU` is the stored
(upper-cased) issue key entity when one was found.  The four conditions are
tried in the source's order; in the `transition … to` case the lower-cased
text is split on its first `to`, the remainder stripped, the lower-cased
issue key and the word-bounded literal `issue` removed, and the rest
title-cased.  The `Unknown` literal is the source's fallback for a split
that yields a single part. -/
def transitionNameOf (keyU : Option String) (low : List Char) : Option String :=
  if containsSub "close".data low then some "Closed"
  else if containsSub "resolve".data low then some "Resolved"
  else if containsSub "abandon".data low then some "Abandoned"
  else if containsSub "transition".data low && containsSub "to".data low then
    match splitFirst "to".data low with
    | some (_, after) =>
      let p0 := stripL after
      let p1 := match keyU with
        | some k => stripL (replaceEmpty (lowerL k.data) p0)
        | none => p0
      some (strOf (titleL (stripL (subIssue p1))))
    | none => some "Unknown"
  else none

/-- The transition branch's entity map (lines 102–130): the issue key is
extracted first (so the transition name can strip it), then the transition
name. -/
def transitionEntities (text low : List Char) : List (String × String) :=
  let keyU := (issueSearch none text).map (fun k => strOf (upperL k))
  let e1 := match keyU with
    | some ku => [("issue_key", ku)]
    | none => ([] : List (String × String))
  match transitionNameOf keyU low with
  | some n => e1 ++ [("transition_name", n)]
  | none => e1

/-- The transition branch (lines 99–135): intent `transition`, downgraded to
`unclear_transition` when the issue key or the transition name is absent or
empty. -/
def transitionBranch (text low : List Char) : ParseResult :=
  { intent := if !entTruthy (transitionEntities text low) "issue_key"
              then "unclear_transition"
              else if !entTruthy (transitionEntities text low) "transition_name"
              then "unclear_transition"
              else "transition"
    entities := transitionEntities text low
    message := none }

/-- The modify branch's entity map (lines 145–161): issue key, then the
summary/title pattern, and only on its failure the description pattern; a
field match stores the field name and the stripped captured value together. -/
def modifyEntities (text : List Char) : List (String × String) :=
  let e1 := match issueSearch none text with
    | some k => [("issue_key", strOf (upperL k))]
    | none => ([] : List (String × String))
  match searchScan sumToAt text with
  | some (_, g, _) => e1 ++ [("field", "summary"), ("new_value", strOf (stripL g))]
  | none =>
    match searchScan descToAt text with
    | some (_, g, _) =>
      e1 ++ [("field", "description"), ("new_value", strOf (stripL g))]
    | none => e1

/-- The modify branch (lines 142–165): intent `modify`, downgraded to
`unclear_modify` when the issue key or the field entity is missing. -/
def modifyBranch (text : List Char) : ParseResult :=
  { intent := if !entTruthy (modifyEntities text) "issue_key" ||
                 !entTruthy (modifyEntities text) "field"
              then "unclear_modify" else "modify"
    entities := modifyEntities text
    message := none }

/-- The error dictionary's message (line 35). -/
def errorMessage : String := "NLU model not loaded. Cannot process command."

/-- `NLUProcessor.process_command` (lines 24–167).  `modelLoaded` is the
truthiness of `self.nlp` (set once in `__init__`).  The three intent branches
are guarded by an `elif` chain: the first trigger that fires wins, and a
command matching no trigger keeps the initial `{intent: unknown, entities:
{}}` record. -/
def process_command (modelLoaded : Bool) (commandText : String) : ParseResult :=
  if !modelLoaded then
    { intent := "error", entities := [], message := some errorMessage }
  else
    let text := commandText.data
    let low := lowerL text
    if createTrigger low then createBranch text low
    else if transitionTrigger low then transitionBranch text low
    else if modifyTrigger low then modifyBranch text
    else { intent := "unknown", entities := [], message := none }

/-- The classifier's state: the one field of `NLUProcessor` that
`process_command` reads (`self.nlp`, abstracted to whether the model
loaded).  `process_command` contains no assignment to `self`, so the
state-passing rendering of the method returns the state unchanged. -/
structure NLUProcessor where
  nlpLoaded : Bool
deriving Repr, DecidableEq

/-- The method call as a state transformer: result paired with the
(unmodified) processor state. -/
def NLUProcessor.processCommandState (p : NLUProcessor) (s : String) :
    ParseResult × NLUProcessor :=
  (process_command p.nlpLoaded s, p)

/-- The recognized entity names of the specification's data model. -/
def recognizedKeys : List String :=
  ["issue_type", "description", "project_key", "summary",
   "issue_key", "transition_name", "field", "new_value"]

/-- Well-formedness of one entity pair: the key is a recognized name, the
issue type and field values come from their fixed sets, and the structured
values (project key, issue key) are never the empty string.  The free-text
values obtained by stripping a captured group (summary, description,
new value, transition name) carry no such guarantee. -/
def entOk (k v : String) : Prop :=
  k ∈ recognizedKeys ∧
  (k = "issue_type" → v ∈ (["Story", "Task", "Defect", "Bug"] : List String)) ∧
  (k = "field" → v = "summary" ∨ v = "description") ∧
  (k = "project_key" → v ≠ "") ∧
  (k = "issue_key" → v ≠ "")

/-- Token check of the project pattern exactly as the claim states it, with
the token restricted to UPPERCASE letters: a greedy uppercase run of 2–10
letters reaching the end of the text. -/
def upperTokCheck (r2 : List Char) : Bool :=
  decide (2 ≤ (r2.takeWhile isUpperCh).length) &&
  decide ((r2.takeWhile isUpperCh).length ≤ 10) &&
  (decide (r2.dropWhile isUpperCh = []) || decide (r2.dropWhile isUpperCh = ['\n']))

/-- Rendering of the claim's wording for one suffix: the suffix is exactly
(in|for|on), optional whitespace, optionally the word `project`, optional
whitespace, then a token of 2–10 uppercase letters ending the text. -/
def upperTokSuffix (s : List Char) : Bool :=
  match dropCI "in".data s <|> dropCI "for".data s <|> dropCI "on".data s with
  | none => false
  | some r =>
    (match dropCI "project".data (r.dropWhile isSpaceCh) with
     | some r2 => upperTokCheck (r2.dropWhile isSpaceCh)
     | none => false) ||
    upperTokCheck (r.dropWhile isSpaceCh)

/-- Rendering of the claim's wording for the whole working text: some suffix
of the text matches the uppercase-token project pattern. -/
def endsWithUpperTok (t : List Char) : Bool := t.tails.any upperTokSuffix

/-- Well-formedness of a whole entity map: every pair satisfies `entOk`. -/
def checkEnts (es : List (String × String)) : Prop := ∀ p ∈ es, entOk p.1 p.2

/-! ## Helper lemmas -/

/-- Unpack a successful `Option.orElse`: either the first alternative
succeeded, or it failed and the second succeeded. -/
theorem orElse_some {α : Type} {a b : Option α} {x : α} (h : (a <|> b) = some x) :
    a = some x ∨ (a = none ∧ b = some x) := by
  cases a with
  | none => right; exact ⟨rfl, by simpa using h⟩
  | some y => left; simpa using h

/-- A case-insensitively consumed literal splits the text into a segment that
lower-cases to the literal's lower-casing, followed by the rest. -/
theorem dropCI_decomp :
    ∀ (ps s r : List Char), dropCI ps s = some r →
      ∃ u, s = u ++ r ∧ lowerL u = lowerL ps := by
  intro ps
  induction ps with
  | nil =>
    intro s r h
    simp only [dropCI, Option.some.injEq] at h
    exact ⟨[], by simp [h], by simp [lowerL]⟩
  | cons p ps ih =>
    intro s r h
    cases s with
    | nil => simp [dropCI] at h
    | cons c cs =>
      simp only [dropCI] at h
      by_cases hc : (lowerChar c == lowerChar p) = true
      · rw [if_pos hc] at h
        obtain ⟨u, hu, hl⟩ := ih cs r h
        refine ⟨c :: u, by simp [hu], ?_⟩
        simp only [lowerL, List.map_cons] at hl ⊢
        exact by rw [hl, eq_of_beq hc]
      · rw [if_neg hc] at h
        exact absurd h (by simp)

/-- A successful leftmost search splits the text at the match position. -/
theorem searchScan_decomp (f : List Char → Option (List Char × List Char)) :
    ∀ (s pre g rest : List Char), searchScan f s = some (pre, g, rest) →
      ∃ u, s = pre ++ u ∧ f u = some (g, rest) := by
  intro s
  induction s with
  | nil =>
    intro pre g rest h
    cases hf : f [] with
    | none => simp [searchScan, hf] at h
    | some r0 =>
      simp only [searchScan, hf, Option.map_some', Option.some.injEq,
        Prod.mk.injEq] at h
      obtain ⟨h1, h2, h3⟩ := h
      subst h1
      exact ⟨[], by simp, by rw [hf, ← h2, ← h3]⟩
  | cons c cs ih =>
    intro pre g rest h
    cases hf : f (c :: cs) with
    | some r0 =>
      simp only [searchScan, hf, Option.some.injEq, Prod.mk.injEq] at h
      obtain ⟨h1, h2, h3⟩ := h
      subst h1
      exact ⟨c :: cs, by simp, by rw [hf, ← h2, ← h3]⟩
    | none =>
      simp only [searchScan, hf] at h
      cases hs : searchScan f cs with
      | none => rw [hs] at h; simp at h
      | some r1 =>
        rw [hs] at h
        simp only [Option.map_some', Option.some.injEq, Prod.mk.injEq] at h
        obtain ⟨h1, h2, h3⟩ := h
        obtain ⟨u, hu, hfu⟩ := ih r1.1 r1.2.1 r1.2.2 (by rw [hs])
        refine ⟨u, ?_, ?_⟩
        · rw [← h1]; simp [hu]
        · rw [← h2, ← h3]; exact hfu

/-- A successful end-anchored token match is the greedy letter run itself:
2–10 letters spanning the rest of the text up to the optional final newline. -/
theorem projTok_decomp (b : Bool) (r tok rest : List Char)
    (h : projTok b r = some (tok, rest)) :
    r = tok ++ rest ∧ tok.all isLetterCh = true ∧ 2 ≤ tok.length ∧
    tok.length ≤ 10 ∧ (rest = [] ∨ rest = ['\n']) := by
  cases b with
  | false => simp [projTok] at h
  | true =>
    simp only [projTok, if_true] at h
    by_cases hc : 2 ≤ (r.takeWhile isLetterCh).length ∧
        (r.takeWhile isLetterCh).length ≤ 10 ∧ atEndL (r.dropWhile isLetterCh)
    · rw [if_pos hc] at h
      simp only [Option.some.injEq, Prod.mk.injEq] at h
      obtain ⟨h1, h2⟩ := h
      subst h1; subst h2
      exact ⟨(List.takeWhile_append_dropWhile ..).symm, List.all_takeWhile,
        hc.1, hc.2.1, hc.2.2⟩
    · rw [if_neg hc] at h
      exact absurd h (by simp)

/-- Soundness of one attempt of the project pattern: a successful attempt
decomposes the text as keyword, whitespace, optional `project`, whitespace,
then the 2–10 letter token reaching the end. -/
theorem projAt_decomp (s tok rest : List Char) (h : projAt s = some (tok, rest)) :
    ∃ kw sp1 pr sp2,
      s = kw ++ sp1 ++ pr ++ sp2 ++ tok ++ rest ∧
      (lowerL kw = "in".data ∨ lowerL kw = "for".data ∨ lowerL kw = "on".data) ∧
      sp1.all isSpaceCh = true ∧
      (pr = [] ∨ lowerL pr = "project".data) ∧
      sp2.all isSpaceCh = true ∧
      tok.all isLetterCh = true ∧ 2 ≤ tok.length ∧ tok.length ≤ 10 ∧
      (rest = [] ∨ rest = ['\n']) := by
  unfold projAt at h
  cases hkw : (dropCI "in".data s <|> dropCI "for".data s <|> dropCI "on".data s) with
  | none => rw [hkw] at h; exact absurd h (by simp)
  | some r1 =>
    rw [hkw] at h
    simp only at h
    have hkwd : ∃ kw, s = kw ++ r1 ∧
        (lowerL kw = "in".data ∨ lowerL kw = "for".data ∨ lowerL kw = "on".data) := by
      rcases orElse_some hkw with h1 | ⟨_, h23⟩
      · obtain ⟨u, hu, hl⟩ := dropCI_decomp _ _ _ h1
        exact ⟨u, hu, Or.inl (by rw [hl]; decide)⟩
      · rcases orElse_some h23 with h2 | ⟨_, h3⟩
        · obtain ⟨u, hu, hl⟩ := dropCI_decomp _ _ _ h2
          exact ⟨u, hu, Or.inr (Or.inl (by rw [hl]; decide))⟩
        · obtain ⟨u, hu, hl⟩ := dropCI_decomp _ _ _ h3
          exact ⟨u, hu, Or.inr (Or.inr (by rw [hl]; decide))⟩
    obtain ⟨kw, hs, hkwor⟩ := hkwd
    have hr1 : r1 = r1.takeWhile isSpaceCh ++ r1.dropWhile isSpaceCh :=
      (List.takeWhile_append_dropWhile ..).symm
    rcases orElse_some h with hwp | ⟨_, hnp⟩
    · cases hpr : dropCI "project".data (r1.dropWhile isSpaceCh) with
      | none => rw [hpr] at hwp; exact absurd hwp (by simp)
      | some r3 =>
        rw [hpr] at hwp
        obtain ⟨hr3, hall, hlen2, hlen10, hrest⟩ := projTok_decomp _ _ _ _ hwp
        obtain ⟨pr, hpru, hprl⟩ := dropCI_decomp _ _ _ hpr
        refine ⟨kw, r1.takeWhile isSpaceCh, pr, r3.takeWhile isSpaceCh,
          ?_, hkwor, List.all_takeWhile, Or.inr hprl, List.all_takeWhile,
          hall, hlen2, hlen10, hrest⟩
        have hr3' : r3 = r3.takeWhile isSpaceCh ++ (tok ++ rest) := by
          rw [← hr3]; exact (List.takeWhile_append_dropWhile ..).symm
        rw [hs]
        conv_lhs => rw [hr1, hpru, hr3']
        simp [List.append_assoc]
    · obtain ⟨hr2, hall, hlen2, hlen10, hrest⟩ := projTok_decomp _ _ _ _ hnp
      refine ⟨kw, r1.takeWhile isSpaceCh, [], [],
        ?_, hkwor, List.all_takeWhile, Or.inl rfl, by simp,
        hall, hlen2, hlen10, hrest⟩
      rw [hs]
      conv_lhs => rw [hr1, hr2]
      simp [List.append_assoc]

/-- Lookup distributes over appended entity lists, first list first. -/
theorem lookupEnt_append (a b : List (String × String)) (k : String) :
    lookupEnt (a ++ b) k =
      match lookupEnt a k with
      | some v => some v
      | none => lookupEnt b k := by
  induction a with
  | nil => simp [lookupEnt]
  | cons p rest ih =>
    by_cases hp : k = p.1
    · simp [lookupEnt, hp]
    · simp [lookupEnt, hp, ih]

/-- Python falsiness of `entities.get(k)` unpacked: the key is absent or its
value is the empty string. -/
theorem entTruthy_false_iff (es : List (String × String)) (k : String) :
    entTruthy es k = false ↔
      (lookupEnt es k = none ∨ lookupEnt es k = some "") := by
  unfold entTruthy
  cases h : lookupEnt es k with
  | none => simp
  | some v =>
    simp only [Bool.not_eq_false', beq_iff_eq, Option.some.injEq]
    constructor
    · intro hv; exact Or.inr hv
    · rintro (h' | h')
      · exact absurd h' (by simp)
      · exact h'

/-- A packed character list is the empty string exactly when the list is
empty. -/
theorem strOf_eq_empty_iff (l : List Char) : strOf l = "" ↔ l = [] := by
  constructor
  · intro h
    have : l = ("" : String).data := congrArg String.data h
    simpa using this
  · intro h; rw [h]; rfl

/-- When the separator occurs as a substring, splitting on its first
occurrence succeeds (Python's two-part case). -/
theorem splitFirst_isSome_of_containsSub (pat : List Char) :
    ∀ s : List Char, containsSub pat s = true → (splitFirst pat s).isSome = true := by
  intro s
  induction s with
  | nil =>
    intro h
    simp only [containsSub] at h
    simp [splitFirst, h]
  | cons c cs ih =>
    intro h
    simp only [containsSub, Bool.or_eq_true] at h
    unfold splitFirst
    by_cases hl : hasLead pat (c :: cs) = true
    · simp [hl]
    · rcases h with h | h
      · exact absurd h hl
      · simp only [if_neg hl, Option.isSome_map']
        exact ih h

/-- Intent of the create branch: `create` or `unclear_create`. -/
theorem createBranch_intents (text low : List Char) :
    (createBranch text low).intent = "create" ∨
    (createBranch text low).intent = "unclear_create" := by
  cases hb : entTruthy (createEntities text low) "summary" <;>
    simp [createBranch, hb]

/-- Intent of the transition branch: `transition` or `unclear_transition`. -/
theorem transitionBranch_intents (text low : List Char) :
    (transitionBranch text low).intent = "transition" ∨
    (transitionBranch text low).intent = "unclear_transition" := by
  cases h1 : entTruthy (transitionEntities text low) "issue_key" <;>
    cases h2 : entTruthy (transitionEntities text low) "transition_name" <;>
      simp [transitionBranch, h1, h2]

/-- Intent of the modify branch: `modify` or `unclear_modify`. -/
theorem modifyBranch_intents (text : List Char) :
    (modifyBranch text).intent = "modify" ∨
    (modifyBranch text).intent = "unclear_modify" := by
  cases h1 : entTruthy (modifyEntities text) "issue_key" <;>
    cases h2 : entTruthy (modifyEntities text) "field" <;>
      simp [modifyBranch, h1, h2]

/-- With the model loaded and the create trigger satisfied, the classifier
runs the create branch. -/
theorem process_command_create (s : String)
    (h : createTrigger (lowerL s.data) = true) :
    process_command true s = createBranch s.data (lowerL s.data) := by
  simp [process_command, h]

/-- With the create trigger failed and the transition trigger satisfied, the
classifier runs the transition branch. -/
theorem process_command_transition (s : String)
    (h1 : createTrigger (lowerL s.data) = false)
    (h2 : transitionTrigger (lowerL s.data) = true) :
    process_command true s = transitionBranch s.data (lowerL s.data) := by
  simp [process_command, h1, h2]

/-- With the create and transition triggers failed and the modify trigger
satisfied, the classifier runs the modify branch. -/
theorem process_command_modify (s : String)
    (h1 : createTrigger (lowerL s.data) = false)
    (h2 : transitionTrigger (lowerL s.data) = false)
    (h3 : modifyTrigger (lowerL s.data) = true) :
    process_command true s = modifyBranch s.data := by
  simp [process_command, h1, h2, h3]

/-- With every trigger failed, the classifier returns the untouched initial
record. -/
theorem process_command_unknown (s : String)
    (h1 : createTrigger (lowerL s.data) = false)
    (h2 : transitionTrigger (lowerL s.data) = false)
    (h3 : modifyTrigger (lowerL s.data) = false) :
    process_command true s = { intent := "unknown", entities := [], message := none } := by
  simp [process_command, h1, h2, h3]

/-- With the model loaded, the intent always lies in the closed seven-value
set. -/
theorem process_command_true_intent (s : String) :
    (process_command true s).intent ∈
      (["create", "transition", "modify", "unclear_create", "unclear_transition",
        "unclear_modify", "unknown"] : List String) := by
  cases hc : createTrigger (lowerL s.data) with
  | true =>
    rw [process_command_create s hc]
    rcases createBranch_intents s.data (lowerL s.data) with hi | hi <;> rw [hi] <;> decide
  | false =>
    cases ht : transitionTrigger (lowerL s.data) with
    | true =>
      rw [process_command_transition s hc ht]
      rcases transitionBranch_intents s.data (lowerL s.data) with hi | hi <;>
        rw [hi] <;> decide
    | false =>
      cases hm : modifyTrigger (lowerL s.data) with
      | true =>
        rw [process_command_modify s hc ht hm]
        rcases modifyBranch_intents s.data with hi | hi <;> rw [hi] <;> decide
      | false =>
        rw [process_command_unknown s hc ht hm]
        decide

/-- The intent `unknown` only arises from the untouched initial record, whose
entity map is empty. -/
theorem process_command_unknown_entities (s : String)
    (h : (process_command true s).intent = "unknown") :
    (process_command true s).entities = [] := by
  cases hc : createTrigger (lowerL s.data) with
  | true =>
    rw [process_command_create s hc] at h ⊢
    rcases createBranch_intents s.data (lowerL s.data) with hi | hi <;>
      rw [hi] at h <;> exact absurd h (by decide)
  | false =>
    cases ht : transitionTrigger (lowerL s.data) with
    | true =>
      rw [process_command_transition s hc ht] at h ⊢
      rcases transitionBranch_intents s.data (lowerL s.data) with hi | hi <;>
        rw [hi] at h <;> exact absurd h (by decide)
    | false =>
      cases hm : modifyTrigger (lowerL s.data) with
      | true =>
        rw [process_command_modify s hc ht hm] at h ⊢
        rcases modifyBranch_intents s.data with hi | hi <;>
          rw [hi] at h <;> exact absurd h (by decide)
      | false =>
        rw [process_command_unknown s hc ht hm]

/-! ## Claims -/

/-- C1: for every input, `process_command` (a total function here, modelling
that the Python method raises no exception) returns an intent from the closed
set {create, transition, modify, unclear_create, unclear_transition,
unclear_modify, unknown} when the model is loaded; when the model failed to
load it returns intent `error`; and an `unknown` intent always comes with an
empty entity map, the worst-case result for malformed input. -/
theorem claim1_total_closed_intents (loaded : Bool) (s : String) :
    (loaded = false → (process_command loaded s).intent = "error") ∧
    (loaded = true → (process_command loaded s).intent ∈
      (["create", "transition", "modify", "unclear_create", "unclear_transition",
        "unclear_modify", "unknown"] : List String)) ∧
    ((process_command loaded s).intent = "unknown" →
      (process_command loaded s).entities = []) := by
  cases loaded with
  | false =>
    have hred : process_command false s =
        { intent := "error", entities := [], message := some errorMessage } := rfl
    rw [hred]
    exact ⟨fun _ => rfl, fun h => absurd h (by decide), fun hu => absurd hu (by decide)⟩
  | true =>
    exact ⟨fun h => absurd h (by decide), fun _ => process_command_true_intent s,
      process_command_unknown_entities s⟩

/-- Witness for C1 at a concrete input. -/
theorem claim1_witness :
    (process_command true "hello").intent ∈
      (["create", "transition", "modify", "unclear_create", "unclear_transition",
        "unclear_modify", "unknown"] : List String) :=
  (claim1_total_closed_intents true "hello").2.1 rfl

/-- C4: intent dispatch is first-match-wins — whenever the lower-cased text
satisfies the create trigger, the result's intent is `create` or
`unclear_create`, regardless of any transition or modify keywords also
present (the later `elif` conditions are never consulted). -/
theorem claim4_create_branch_first (s : String)
    (h : createTrigger (lowerL s.data) = true) :
    (process_command true s).intent = "create" ∨
    (process_command true s).intent = "unclear_create" := by
  rw [process_command_create s h]
  exact createBranch_intents s.data (lowerL s.data)

/-- Witness for C4: a command containing the create trigger together with
the transition keyword `close` and the modify keyword `update`. -/
theorem claim4_witness :
    (process_command true "create a story 'Fix login' then close and update PROJ-1").intent
        = "create" ∨
    (process_command true "create a story 'Fix login' then close and update PROJ-1").intent
        = "unclear_create" :=
  claim4_create_branch_first "create a story 'Fix login' then close and update PROJ-1"
    (by decide)

/-- C5: the transition example — the issue key is found, the lower-cased text
is split on its first `to`, the issue key and the word `issue` are stripped
from the remainder, and the rest is title-cased. -/
theorem claim5_transition_example :
    process_command true "transition QA-456 to In Progress" =
      { intent := "transition"
        entities := [("issue_key", "QA-456"), ("transition_name", "In Progress")]
        message := none } := by decide

/-- C8: `process_command` is deterministic and stateless — the state-passing
rendering of the method returns the processor state unchanged, and a second
call on the same input returns the same result. -/
theorem claim8_stateless_idempotent (p : NLUProcessor) (s : String) :
    (p.processCommandState s).2 = p ∧
    ((p.processCommandState s).2.processCommandState s).1 =
      (p.processCommandState s).1 :=
  ⟨rfl, rfl⟩

/-- C9: the `Unknown` transition-name fallback is unreachable — whenever the
guard of the `transition … to` case holds (the lower-cased text contains
`transition` and `to`), splitting on the first `to` succeeds, so the
else-branch assigning the literal `Unknown` never executes. -/
theorem claim9_unknown_fallback_dead (low : List Char)
    (h : (containsSub "transition".data low && containsSub "to".data low) = true) :
    (splitFirst "to".data low).isSome = true :=
  splitFirst_isSome_of_containsSub "to".data low ((Bool.and_eq_true _ _).mp h).2

/-- Witness for C9 at a concrete guarded input. -/
theorem claim9_witness :
    (splitFirst "to".data "transition qa-456 to done".data).isSome = true :=
  claim9_unknown_fallback_dead "transition qa-456 to done".data (by decide)

/-- In the create branch the intent is downgraded exactly when the summary
entity is absent or an empty string. -/
theorem createBranch_unclear_iff (text low : List Char) :
    ((createBranch text low).intent = "unclear_create" ↔
      (lookupEnt (createBranch text low).entities "summary" = none ∨
       lookupEnt (createBranch text low).entities "summary" = some "")) := by
  have he : (createBranch text low).entities = createEntities text low := rfl
  rw [he]
  cases hb : entTruthy (createEntities text low) "summary" with
  | false =>
    have hr := (entTruthy_false_iff (createEntities text low) "summary").mp hb
    simp [createBranch, hb, hr]
  | true =>
    rw [show (createBranch text low).intent = "create" from by simp [createBranch, hb]]
    constructor
    · intro hi; exact absurd hi (by decide)
    · intro hcon
      have hf := (entTruthy_false_iff (createEntities text low) "summary").mpr hcon
      rw [hb] at hf
      exact absurd hf (by decide)

/-- C7: for every input entering the create branch, the intent is
`unclear_create` exactly when no usable summary was extracted (the summary
entity is absent or empty); the presence or absence of project key and
description entities plays no role in the downgrade. -/
theorem claim7_summary_gates_intent (s : String)
    (h : createTrigger (lowerL s.data) = true) :
    ((process_command true s).intent = "unclear_create" ↔
      (lookupEnt (process_command true s).entities "summary" = none ∨
       lookupEnt (process_command true s).entities "summary" = some "")) := by
  rw [process_command_create s h]
  exact createBranch_unclear_iff s.data (lowerL s.data)

/-- Witness for C7: the claim's concrete example returns `unclear_create`. -/
theorem claim7_witness :
    (process_command true "create a story in project ABC").intent = "unclear_create" :=
  (claim7_summary_gates_intent "create a story in project ABC" (by decide)).mpr
    (Or.inr (by decide))

/-- In the modify entity map, `field` and `new_value` are inserted together,
and `field` only ever receives the literals `summary` or `description`. -/
theorem modifyEntities_field_value (text : List Char) :
    ((lookupEnt (modifyEntities text) "field" = none ↔
      lookupEnt (modifyEntities text) "new_value" = none) ∧
     ∀ f, lookupEnt (modifyEntities text) "field" = some f →
       f = "summary" ∨ f = "description") := by
  simp only [modifyEntities]
  split <;> split <;> (try split) <;>
    simp [lookupEnt_append, lookupEnt]

/-- C10: every result of the modify branch has `field` and `new_value`
either both present or both absent, and a present `field` is exactly
`summary` or `description` (the summary/title pattern is tried first, the
description pattern only on its failure). -/
theorem claim10_modify_field_pairing (s : String)
    (h1 : createTrigger (lowerL s.data) = false)
    (h2 : transitionTrigger (lowerL s.data) = false)
    (h3 : modifyTrigger (lowerL s.data) = true) :
    ((lookupEnt (process_command true s).entities "field" = none ↔
      lookupEnt (process_command true s).entities "new_value" = none) ∧
     ∀ f, lookupEnt (process_command true s).entities "field" = some f →
       f = "summary" ∨ f = "description") := by
  rw [process_command_modify s h1 h2 h3]
  have he : (modifyBranch s.data).entities = modifyEntities s.data := rfl
  rw [he]
  exact modifyEntities_field_value s.data

/-- Witness for C10 at the spec's modify example. -/
theorem claim10_witness :
    ((lookupEnt (process_command true "modify MYPROJ-123 summary to 'New Title'").entities
        "field" = none ↔
      lookupEnt (process_command true "modify MYPROJ-123 summary to 'New Title'").entities
        "new_value" = none) ∧
     ∀ f, lookupEnt (process_command true "modify MYPROJ-123 summary to 'New Title'").entities
        "field" = some f → f = "summary" ∨ f = "description") :=
  claim10_modify_field_pairing "modify MYPROJ-123 summary to 'New Title'"
    (by decide) (by decide) (by decide)

/-- C2 counterexample: on the claim's exact input the code does NOT extract
`project_key` — removing the description span leaves a trailing space, so
the end-anchored project pattern fails. -/
theorem claim2_counterexample :
    lookupEnt (process_command true
      "create a story 'User profile' in project MYPROJ with description 'Add a user profile page.'").entities
      "project_key" = none := by decide

/-- C2 (amended): on that input the code extracts the summary and the
description correctly, neither consuming the other's matched text, but the
working text left by removing the description span ends in a space, so the
end-anchored project-key pattern matches nothing and `project_key` is
absent. -/
theorem claim2_amended_result :
    process_command true
      "create a story 'User profile' in project MYPROJ with description 'Add a user profile page.'" =
      { intent := "create"
        entities := [("issue_type", "Story"),
                     ("description", "Add a user profile page."),
                     ("summary", "User profile")]
        message := none } := by decide

/-! ## Entity well-formedness machinery (claims C3 and C6) -/

theorem entOk_issue_type_val (v : String)
    (h : v ∈ (["Story", "Task", "Defect", "Bug"] : List String)) :
    entOk "issue_type" v :=
  ⟨by decide, fun _ => h, fun hk => absurd hk (by decide),
   fun hk => absurd hk (by decide), fun hk => absurd hk (by decide)⟩

theorem entOk_description_val (v : String) : entOk "description" v :=
  ⟨by decide, fun hk => absurd hk (by decide), fun hk => absurd hk (by decide),
   fun hk => absurd hk (by decide), fun hk => absurd hk (by decide)⟩

theorem entOk_project_key_val (v : String) (h : v ≠ "") : entOk "project_key" v :=
  ⟨by decide, fun hk => absurd hk (by decide), fun hk => absurd hk (by decide),
   fun _ => h, fun hk => absurd hk (by decide)⟩

theorem entOk_summary_val (v : String) : entOk "summary" v :=
  ⟨by decide, fun hk => absurd hk (by decide), fun hk => absurd hk (by decide),
   fun hk => absurd hk (by decide), fun hk => absurd hk (by decide)⟩

theorem entOk_issue_key_val (v : String) (h : v ≠ "") : entOk "issue_key" v :=
  ⟨by decide, fun hk => absurd hk (by decide), fun hk => absurd hk (by decide),
   fun hk => absurd hk (by decide), fun _ => h⟩

theorem entOk_transition_name_val (v : String) : entOk "transition_name" v :=
  ⟨by decide, fun hk => absurd hk (by decide), fun hk => absurd hk (by decide),
   fun hk => absurd hk (by decide), fun hk => absurd hk (by decide)⟩

theorem entOk_field_summary : entOk "field" "summary" :=
  ⟨by decide, fun hk => absurd hk (by decide), fun _ => Or.inl rfl,
   fun hk => absurd hk (by decide), fun hk => absurd hk (by decide)⟩

theorem entOk_field_description : entOk "field" "description" :=
  ⟨by decide, fun hk => absurd hk (by decide), fun _ => Or.inr rfl,
   fun hk => absurd hk (by decide), fun hk => absurd hk (by decide)⟩

theorem entOk_new_value_val (v : String) : entOk "new_value" v :=
  ⟨by decide, fun hk => absurd hk (by decide), fun hk => absurd hk (by decide),
   fun hk => absurd hk (by decide), fun hk => absurd hk (by decide)⟩

theorem checkEnts_nil : checkEnts [] := by
  intro p hp
  simp at hp

theorem checkEnts_append {a b : List (String × String)}
    (ha : checkEnts a) (hb : checkEnts b) : checkEnts (a ++ b) := by
  intro p hp
  rcases List.mem_append.mp hp with h | h
  exacts [ha p h, hb p h]

theorem checkEnts_cons {k v : String} {rest : List (String × String)}
    (h : entOk k v) (hr : checkEnts rest) : checkEnts ((k, v) :: rest) := by
  intro p hp
  rcases List.mem_cons.mp hp with h' | h'
  · rw [h']; exact h
  · exact hr p h'

/-- Upper-casing a non-empty character list never packs to the empty
string. -/
theorem strOf_upperL_ne_empty {l : List Char} (h : l ≠ []) :
    strOf (upperL l) ≠ "" := by
  intro hc
  rw [strOf_eq_empty_iff] at hc
  apply h
  have hlen := congrArg List.length hc
  simp only [upperL, List.length_map, List.length_nil] at hlen
  exact List.length_eq_zero.mp hlen

/-- A successful issue-key attempt never yields an empty match (it contains
the dash). -/
theorem issueAt_ne_nil (prev : Option Char) (s k : List Char)
    (h : issueAt prev s = some k) : k ≠ [] := by
  unfold issueAt at h
  repeat' split at h
  all_goals
    first
      | exact absurd h (fun hh => Option.noConfusion hh)
      | (injection h with h
         subst h
         intro hc
         have hl := congrArg List.length hc
         simp at hl)

/-- A successful issue-key search never yields an empty match. -/
theorem issueSearch_ne_nil :
    ∀ (s : List Char) (prev : Option Char) (k : List Char),
      issueSearch prev s = some k → k ≠ [] := by
  intro s
  induction s with
  | nil =>
    intro prev k h
    exact issueAt_ne_nil prev [] k (by simpa [issueSearch] using h)
  | cons c cs ih =>
    intro prev k h
    simp only [issueSearch] at h
    cases hi : issueAt prev (c :: cs) with
    | some k0 =>
      simp only [hi, Option.some.injEq] at h
      subst h
      exact issueAt_ne_nil prev (c :: cs) k0 hi
    | none =>
      simp only [hi] at h
      exact ih (some c) k h

/-- The issue-type entity always carries one of the four capitalized
keywords. -/
theorem issueTypeOf_mem (low : List Char) :
    issueTypeOf low ∈ (["Story", "Task", "Defect", "Bug"] : List String) := by
  unfold issueTypeOf
  repeat' split
  all_goals decide

/-- A token found by the project search is at least two letters, so its
upper-cased packing is never the empty string. -/
theorem projSearch_tok_ne_empty (t pre tok rest : List Char)
    (hp : searchScan projAt t = some (pre, tok, rest)) :
    strOf (upperL tok) ≠ "" := by
  obtain ⟨u, _, hat⟩ := searchScan_decomp projAt t pre tok rest hp
  obtain ⟨kw, sp1, pr, sp2, _, _, _, _, _, _, h2, _, _⟩ := projAt_decomp u tok rest hat
  apply strOf_upperL_ne_empty
  intro hnil
  rw [hnil] at h2
  simp at h2

/-- Every pair in a create-branch entity map is well-formed. -/
theorem createEntities_check (text low : List Char) :
    checkEnts (createEntities text low) := by
  have h0 : checkEnts [("issue_type", issueTypeOf low)] :=
    checkEnts_cons (entOk_issue_type_val _ (issueTypeOf_mem low)) checkEnts_nil
  simp only [createEntities]
  rcases hd : descGroup text with _ | g1 <;>
    rcases hp : searchScan projAt (descStripped text) with _ | ⟨pre, tok, rest⟩ <;>
      simp only [hd, hp] <;> (try split) <;> (try split) <;> (try split)
  all_goals
    repeat'
      first
        | exact checkEnts_nil
        | exact h0
        | apply checkEnts_append
        | exact checkEnts_cons (entOk_description_val _) checkEnts_nil
        | exact checkEnts_cons
            (entOk_project_key_val _ (projSearch_tok_ne_empty _ _ _ _ hp)) checkEnts_nil
        | exact checkEnts_cons (entOk_summary_val _) checkEnts_nil

/-- Every pair in a transition-branch entity map is well-formed. -/
theorem transitionEntities_check (text low : List Char) :
    checkEnts (transitionEntities text low) := by
  simp only [transitionEntities]
  rcases hk : issueSearch none text with _ | kk <;>
    simp only [hk, Option.map_some', Option.map_none'] <;> (try split)
  all_goals
    repeat'
      first
        | exact checkEnts_nil
        | apply checkEnts_append
        | exact checkEnts_cons
            (entOk_issue_key_val _
              (strOf_upperL_ne_empty (issueSearch_ne_nil text none kk hk))) checkEnts_nil
        | exact checkEnts_cons (entOk_transition_name_val _) checkEnts_nil

/-- Every pair in a modify-branch entity map is well-formed. -/
theorem modifyEntities_check (text : List Char) :
    checkEnts (modifyEntities text) := by
  simp only [modifyEntities]
  rcases hk : issueSearch none text with _ | kk <;>
    simp only [hk] <;> (try split) <;> (try split)
  all_goals
    repeat'
      first
        | exact checkEnts_nil
        | apply checkEnts_append
        | exact checkEnts_cons
            (entOk_issue_key_val _
              (strOf_upperL_ne_empty (issueSearch_ne_nil text none kk hk))) checkEnts_nil
        | apply checkEnts_cons entOk_field_summary
        | apply checkEnts_cons entOk_field_description
        | exact checkEnts_cons (entOk_new_value_val _) checkEnts_nil

/-- C3 counterexample: an entity key CAN be mapped to the empty string — the
unquoted fallback summary of `"create a story "` captures a single space,
which strips to the empty string, and the key stays in the map. -/
theorem claim3_counterexample :
    lookupEnt (process_command true "create a story ").entities "summary" =
      some "" := by decide

/-- C3 (amended): every entity pair the classifier emits is well-formed —
the key was set by a successfully matching rule and is one of the recognized
names, the issue type and field values come from their fixed sets, and the
structured project-key and issue-key values are never empty; but the
strip-derived free-text values (summary, description, new value, transition
name) may be the empty string when the matched text was all whitespace. -/
theorem claim3_amended_entity_wf (loaded : Bool) (s : String) (k v : String)
    (h : (k, v) ∈ (process_command loaded s).entities) : entOk k v := by
  cases loaded with
  | false =>
    have hred : (process_command false s).entities = [] := rfl
    rw [hred] at h
    simp at h
  | true =>
    cases hc : createTrigger (lowerL s.data) with
    | true =>
      rw [process_command_create s hc] at h
      exact createEntities_check s.data (lowerL s.data) (k, v) h
    | false =>
      cases ht : transitionTrigger (lowerL s.data) with
      | true =>
        rw [process_command_transition s hc ht] at h
        exact transitionEntities_check s.data (lowerL s.data) (k, v) h
      | false =>
        cases hm : modifyTrigger (lowerL s.data) with
        | true =>
          rw [process_command_modify s hc ht hm] at h
          exact modifyEntities_check s.data (k, v) h
        | false =>
          rw [process_command_unknown s hc ht hm] at h
          simp at h

/-- Witness for C3 (amended) at a concrete entity pair. -/
theorem claim3_witness : entOk "issue_key" "WEBAPP-789" :=
  claim3_amended_entity_wf true "close WEBAPP-789" "issue_key" "WEBAPP-789" (by decide)

/-- The project-key entity of the create branch is exactly the result of the
project search over the description-stripped text, upper-cased. -/
theorem createEntities_project_lookup (text low : List Char) :
    lookupEnt (createEntities text low) "project_key" =
      (searchScan projAt (descStripped text)).map (fun r => strOf (upperL r.2.1)) := by
  simp only [createEntities]
  rcases hd : descGroup text with _ | g1 <;>
    rcases hp : searchScan projAt (descStripped text) with _ | ⟨pre, tok, rest⟩ <;>
      simp only [hd, hp] <;> (try split) <;> (try split) <;> (try split) <;>
        simp [lookupEnt_append, lookupEnt]

/-- C6 counterexample: the claim restricts the project token to uppercase
letters, but `re.IGNORECASE` lets a lowercase token match — the pipeline
extracts project key `DEV` from `in dev` although no suffix of the working
text matches the uppercase-token pattern. -/
theorem claim6_counterexample :
    lookupEnt (process_command true "create task 'T' in dev").entities "project_key" =
      some "DEV" ∧
    endsWithUpperTok (descStripped ("create task 'T' in dev".data)) = false := by
  decide

/-- C6 (amended): in the create branch, `project_key` is extracted only when
the (possibly description-stripped) text ends with (in|for|on), optional
whitespace, optionally the word `project`, optional whitespace, and then a
token of 2–10 letters of either case (the pattern is compiled with
`re.IGNORECASE`); on a match the entity value is that token upper-cased. -/
theorem claim6_project_key_pattern (text low : List Char) (v : String)
    (h : lookupEnt (createEntities text low) "project_key" = some v) :
    ∃ pre kw sp1 pr sp2 tok rest,
      descStripped text = pre ++ kw ++ sp1 ++ pr ++ sp2 ++ tok ++ rest ∧
      (lowerL kw = "in".data ∨ lowerL kw = "for".data ∨ lowerL kw = "on".data) ∧
      sp1.all isSpaceCh = true ∧
      (pr = [] ∨ lowerL pr = "project".data) ∧
      sp2.all isSpaceCh = true ∧
      tok.all isLetterCh = true ∧ 2 ≤ tok.length ∧ tok.length ≤ 10 ∧
      (rest = [] ∨ rest = ['\n']) ∧
      v = strOf (upperL tok) := by
  rw [createEntities_project_lookup] at h
  rcases hp : searchScan projAt (descStripped text) with _ | ⟨pre, tok, rest⟩ <;>
    rw [hp] at h
  · exact absurd h (by simp)
  · simp only [Option.map_some', Option.some.injEq] at h
    obtain ⟨u, hsplit, hat⟩ := searchScan_decomp projAt (descStripped text) pre tok rest hp
    obtain ⟨kw, sp1, pr, sp2, hdec, hkw, hsp1, hpr, hsp2, hall, h2, h10, hrest⟩ :=
      projAt_decomp u tok rest hat
    refine ⟨pre, kw, sp1, pr, sp2, tok, rest, ?_, hkw, hsp1, hpr, hsp2,
      hall, h2, h10, hrest, h.symm⟩
    rw [hsplit, hdec]
    simp [List.append_assoc]

/-- Witness for C6 (amended): the lowercase token input, where the extracted
value `DEV` is the upper-casing of the matched token. -/
theorem claim6_witness :
    ∃ pre kw sp1 pr sp2 tok rest,
      descStripped ("create task 'T' in dev".data) =
        pre ++ kw ++ sp1 ++ pr ++ sp2 ++ tok ++ rest ∧
      (lowerL kw = "in".data ∨ lowerL kw = "for".data ∨ lowerL kw = "on".data) ∧
      sp1.all isSpaceCh = true ∧
      (pr = [] ∨ lowerL pr = "project".data) ∧
      sp2.all isSpaceCh = true ∧
      tok.all isLetterCh = true ∧ 2 ≤ tok.length ∧ tok.length ≤ 10 ∧
      (rest = [] ∨ rest = ['\n']) ∧
      "DEV" = strOf (upperL tok) :=
  claim6_project_key_pattern ("create task 'T' in dev".data)
    (lowerL ("create task 'T' in dev".data)) "DEV" (by decide)

end Jirabot
